import Mathlib

/-!
Verification of the structo file-organizer (Go) against its specification.

The development shallowly embeds the relocation engine of the repository:
the partition-path builders and `FolderFormat` tag tables (`quarter.go`),
the walk/relocate engine with its skip filters, collision resolver,
directory creation and move/copy fallback (the `organizeFiles` engine
variant with dry-run support and the filter pipeline), and the program
entry point's setup steps (`main.go`).

Filesystem state is a pair of lists (directories, files); fallible
syscalls (rename, copy, remove, mkdir) are driven by an environment of
oracle functions, and `filepath.Abs` is modelled as a total path-to-path
function (its only Go failure mode is `Getwd` failing). Log output is
modelled as a list of structured events, one per `log.Printf` call site.
Go's `%d` formatting and the `path/filepath` helpers (`Join`, `Base`,
`Dir`, `Ext`) are modelled directly; `filepath.Clean` is a no-op on the
already-clean components these functions produce, so `Join` is modelled
as separator concatenation with Go's special cases for empty and "."
components.
-/

/-! ## Decimal rendering: Go `fmt.Sprintf("%d", n)` -/

/-- One decimal digit character. -/
def digitChar (n : Nat) : Char :=
  if n = 0 then '0' else if n = 1 then '1' else if n = 2 then '2'
  else if n = 3 then '3' else if n = 4 then '4' else if n = 5 then '5'
  else if n = 6 then '6' else if n = 7 then '7' else if n = 8 then '8'
  else if n = 9 then '9' else '*'

/-- Decimal digits of `n`, most significant first (fuel-driven so that the
kernel can evaluate it; `fuel = n + 1` always suffices since `n / 10 < n`
for `n ≥ 10`). -/
def natDigits : Nat → Nat → List Char
  | 0, _ => []
  | fuel + 1, n =>
    if n < 10 then [digitChar n]
    else natDigits fuel (n / 10) ++ [digitChar (n % 10)]

/-- Go `fmt.Sprintf("%d", n)` for a natural number. -/
def natRepr (n : Nat) : String := String.mk (natDigits (n + 1) n)

/-- Go `fmt.Sprintf("%d", i)` for an `int`. -/
def intRepr (i : Int) : String :=
  if i < 0 then "-" ++ natRepr (-i).toNat else natRepr i.toNat

/-- Two-digit zero-padded rendering, Go `fmt.Sprintf("%02d", n)`. -/
def pad2 (i : Int) : String :=
  if 0 ≤ i ∧ i < 10 then "0" ++ natRepr i.toNat else intRepr i

/-! ## `path/filepath` helpers -/

/-- `filepath.Join(a, b)` for two elements. Go joins the non-empty elements
with `/` and runs `Clean`; on clean inputs the only observable `Clean`
effects are dropping an empty element and a leading `./`. -/
def joinPath (a b : String) : String :=
  if a = "" then b
  else if b = "" then a
  else if a = "." then b
  else a ++ "/" ++ b

/-- `filepath.Base`: the last element of the path, after dropping trailing
separators; `"."` for the empty path and `"/"` for an all-separator path. -/
def baseName (p : String) : String :=
  if p = "" then "."
  else
    let cs := p.toList.reverse.dropWhile (fun c => c = '/')
    if cs = [] then "/"
    else String.mk ((cs.takeWhile (fun c => c ≠ '/')).reverse)

/-- `filepath.Dir`: everything before the final separator (then cleaned);
`"."` when the path holds no separator. -/
def dirName (p : String) : String :=
  let withoutBase := p.toList.reverse.dropWhile (fun c => c ≠ '/')
  let trimmed := withoutBase.dropWhile (fun c => c = '/')
  if trimmed = [] then (if withoutBase = [] then "." else "/")
  else String.mk trimmed.reverse

/-- `filepath.Ext`: the suffix beginning at the final dot in the final
slash-separated element; empty when that element has no dot. -/
def extName (p : String) : String :=
  let base := p.toList.reverse.takeWhile (fun c => c ≠ '/')
  let upToDot := base.takeWhile (fun c => c ≠ '.')
  if upToDot.length = base.length then ""
  else String.mk ('.' :: upToDot.reverse)

/-- Whitespace for `strings.TrimSpace` (the ASCII cases of Unicode
white space, which is all that can appear in the walk's paths). -/
def isSpaceChar (c : Char) : Bool :=
  c = ' ' || c = '\t' || c = '\n' || c = '\r'

/-- Go `strings.TrimSpace`: drop leading and trailing white space. -/
def trimSpace (s : String) : String :=
  String.mk (((s.toList.dropWhile isSpaceChar).reverse.dropWhile isSpaceChar).reverse)

/-! ## `FolderFormat` and its tag tables (`quarter.go`) -/

/-- The closed partition-scheme enumeration. -/
inductive FolderFormat where
  | YearThenQuarters
  | DayThenHours
  | HalfYears
deriving DecidableEq, Repr

/-- Canonical tag, the `stateName` table. -/
def stateName : FolderFormat → String
  | .YearThenQuarters => "year-then-quarters"
  | .DayThenHours => "day-then-hours"
  | .HalfYears => "half-years"

/-- Spanish-localized tag spelling, the Spanish keys of `reverseStateName`. -/
def spanishStateName : FolderFormat → String
  | .YearThenQuarters => "año-luego-cuartos"
  | .DayThenHours => "dia-luego-horas"
  | .HalfYears => "medios-años"

/-- The `reverseStateName` lookup table. -/
def reverseStateName (s : String) : Option FolderFormat :=
  if s = "year-then-quarters" then some .YearThenQuarters
  else if s = "año-luego-cuartos" then some .YearThenQuarters
  else if s = "day-then-hours" then some .DayThenHours
  else if s = "dia-luego-horas" then some .DayThenHours
  else if s = "half-years" then some .HalfYears
  else if s = "medios-años" then some .HalfYears
  else none

/-- `ParseFolderFormat`: table lookup, error on unknown input. -/
def ParseFolderFormat (input : String) : Except String FolderFormat :=
  match reverseStateName input with
  | some format => .ok format
  | none => .error ("invalid FolderFormat: " ++ input)

/-! ## Timestamps and the `YYYY-MM-DD` date layout -/

/-- The calendar facets of a Go `time.Time` that the engine consumes:
`Year()`, `Month()`, `Day()` and the clock used by the `03PM` layout.
`time.Time` comparison (`After`) on calendar-valid values coincides with
lexicographic comparison of these fields. -/
structure Timestamp where
  year : Int
  month : Int
  day : Int
  hour : Int
  minute : Int
deriving DecidableEq, Repr

/-- `time.Time.After`: strict chronological comparison, modelled as the
lexicographic order on the calendar fields. -/
def Timestamp.after (a b : Timestamp) : Bool :=
  if a.year ≠ b.year then a.year > b.year
  else if a.month ≠ b.month then a.month > b.month
  else if a.day ≠ b.day then a.day > b.day
  else if a.hour ≠ b.hour then a.hour > b.hour
  else a.minute > b.minute

/-- Numeric value of a run of digit characters. -/
def digitsVal (cs : List Char) : Nat :=
  cs.foldl (fun acc c => acc * 10 + (c.toNat - '0'.toNat)) 0

/-- Go `time.Parse("2006-01-02", s)`: exactly four digits, dash, two
digits, dash, two digits, with the month and day range-checked against the
calendar (Go rejects month 13 or day 32 with a range error). Returns the
(year, month, day) triple; parsing a date yields midnight UTC of that day. -/
def timeParseDate (s : String) : Option (Int × Int × Int) :=
  match s.toList with
  | [y1, y2, y3, y4, c1, m1, m2, c2, d1, d2] =>
    if c1 = '-' ∧ c2 = '-' ∧ [y1, y2, y3, y4, m1, m2, d1, d2].all Char.isDigit then
      let y := digitsVal [y1, y2, y3, y4]
      let m := digitsVal [m1, m2]
      let d := digitsVal [d1, d2]
      let leap := y % 4 = 0 ∧ (y % 100 ≠ 0 ∨ y % 400 = 0)
      let maxDay : Nat :=
        if m = 2 then (if leap then 29 else 28)
        else if m = 4 ∨ m = 6 ∨ m = 9 ∨ m = 11 then 30
        else 31
      if 1 ≤ m ∧ m ≤ 12 ∧ 1 ≤ d ∧ d ≤ maxDay then
        some ((y : Int), (m : Int), (d : Int))
      else none
    else none
  | _ => none

/-- Midnight at the start of a parsed `YYYY-MM-DD` date: the instant
`time.Parse("2006-01-02", _)` produces. -/
def midnight (y m d : Int) : Timestamp := ⟨y, m, d, 0, 0⟩

/-! ## Error taxonomy (the engine's `error` values, by kind) -/

inductive Err where
  /-- "invalid month %d in modTime %v" from the quarter/semester builders. -/
  | invalidMonth
  /-- "invalid date in modTime: %v" from the day/hour builders. -/
  | invalidDate
  /-- "failed to create target directory ..." from an `os.MkdirAll` failure. -/
  | mkdirFailed (dir : String)
  /-- "failed to determine relative path" from `filepath.Rel`. -/
  | relPathFailed
  /-- "invalid 'before' date format" from the cutoff filter's `time.Parse`. -/
  | invalidBeforeDate
  /-- Model artifact: fuel exhaustion of the unbounded `ensureUniquePath`
  scan (the Go loop runs until a free name is found). -/
  | uniquePathFuel
  /-- "copy fallback failed" from `copyFilePreserve`. -/
  | copyFallbackFailed (src dst : String)
  /-- "failed removing original %q" after a successful copy. -/
  | removeOriginalFailed (src : String)
  /-- `checkFolderExists` failure on the input folder (`main`). -/
  | inputFolderInvalid
  /-- `setupLogger` failing to open the log file (`main`). -/
  | createLogFailed
deriving DecidableEq, Repr

/-! ## Partition-path builders (`quarter.go`) -/

/-- The `quarters` label table of `quarterInfoForMonth`. -/
def quartersTable (lang : String) : List String :=
  if lang = "en" then ["Jan-Mar", "Apr-Jun", "Jul-Sep", "Oct-Dec"]
  else if lang = "es" then ["Ene-Mar", "Abr-Jun", "Jul-Sep", "Oct-Dic"]
  else []

/-- `quarterInfoForMonth`: quarter number and localized label; `(0, "")`
for a month outside 1–12; an empty table for the language falls back to
English. -/
def quarterInfoForMonth (month : Int) (lang : String) : Int × String :=
  if month < 1 ∨ month > 12 then (0, "")
  else
    let quarterNum := (month - 1) / 3 + 1
    let quarterLabels :=
      if (quartersTable lang).length = 0 then quartersTable "en" else quartersTable lang
    (quarterNum, quarterLabels.getD (quarterNum - 1).toNat "")

/-- The `semesters` label table of `semesterInfoForMonth`. -/
def semestersTable (lang : String) : List String :=
  if lang = "en" then ["JAN-FEB-MAR-APR-MAY-JUN", "JUL-AUG-SEP-OCT-NOV-DEC"]
  else if lang = "es" then ["ENE-FEB-MAR-ABR-MAY-JUN", "JUL-AGO-SEP-OCT-NOV-DIC"]
  else []

/-- `semesterInfoForMonth`: semester number (1 for months ≤ 6, else 2) and
localized label; `(0, "")` for a month outside 1–12. -/
def semesterInfoForMonth (month : Int) (lang : String) : Int × String :=
  if month < 1 ∨ month > 12 then (0, "")
  else
    let semesterNum : Int := if month > 6 then 2 else 1
    let semesterLabels :=
      if (semestersTable lang).length = 0 then semestersTable "en" else semestersTable lang
    (semesterNum, semesterLabels.getD (semesterNum - 1).toNat "")

/-- `formatQuarterFolder`: `fmt.Sprintf("Q%d_%s", quarterNum, quarterLabel)`. -/
def formatQuarterFolder (quarterNum : Int) (quarterLabel : String) : String :=
  "Q" ++ intRepr quarterNum ++ "_" ++ quarterLabel

/-- `createYearThenQuartersFolder`: `<outputRoot>/YYYY/Q<number>_monthRange`,
failing when the month yields quarter 0. -/
def createYearThenQuartersFolder (outputRoot : String) (modTime : Timestamp)
    (lang : String) : Except Err String :=
  let info := quarterInfoForMonth modTime.month lang
  if info.1 = 0 then .error .invalidMonth
  else .ok (joinPath (joinPath outputRoot (intRepr modTime.year)) (formatQuarterFolder info.1 info.2))

/-- `isValidDate`: defensive calendar check of `createDayThenHoursFolder`. -/
def isValidDate (year month day : Int) : Bool :=
  year > 0 && month ≥ 1 && month ≤ 12 && day ≥ 1 && day ≤ 31

/-- The `03PM` clock layout: two-digit 12-hour clock with upper-case meridiem. -/
def hourLabel (t : Timestamp) : String :=
  let h12 : Int := if t.hour % 12 = 0 then 12 else t.hour % 12
  pad2 h12 ++ (if t.hour < 12 then "AM" else "PM")

/-- `createDayThenHoursFolder`: `<outputFolder>/YYYY-MM-DD/HHam|pm`, failing
when `isValidDate` rejects the calendar fields. -/
def createDayThenHoursFolder (outputFolder : String) (modTime : Timestamp) :
    Except Err String :=
  if !isValidDate modTime.year modTime.month modTime.day then .error .invalidDate
  else
    let dayFolder := intRepr modTime.year ++ "-" ++ pad2 modTime.month ++ "-" ++ pad2 modTime.day
    .ok (joinPath (joinPath outputFolder dayFolder) (hourLabel modTime))

/-- `createHalfYearsFolder`: `<outputRoot>/YYYY-<LABEL>`, failing when the
month yields semester 0. -/
def createHalfYearsFolder (outputRoot : String) (modTime : Timestamp)
    (lang : String) : Except Err String :=
  let info := semesterInfoForMonth modTime.month lang
  if info.1 = 0 then .error .invalidMonth
  else .ok (joinPath outputRoot (intRepr modTime.year ++ "-" ++ info.2))

/-! ## Filesystem state, syscall oracles and log events -/

/-- Filesystem state: the set of existing directories and regular files,
as lists of absolute-or-relative path strings. -/
structure FS where
  dirs : List String
  files : List String
deriving DecidableEq, Repr

/-- Environment of syscall outcomes and process context. Each oracle says
whether the corresponding operation succeeds on the given paths (the OS may
fail any of them: permissions, cross-device renames, exhausted disk).
`absPath` models `filepath.Abs`, total because its only failure mode is
`os.Getwd` failing. -/
structure Env where
  renameOk : String → String → Bool
  copyOk : String → String → Bool
  removeOk : String → Bool
  mkdirOk : String → Bool
  createOk : String → Bool
  absPath : String → String

/-- One structured record per `log.Printf` site of the engine. -/
inductive LogEvent where
  /-- `locMsg("error_organizing")` on a walk-callback error argument. -/
  | errorOrganizing
  /-- `locMsg("skipping_file")`, emitted by both the already-relocated and
  the log-file filters. -/
  | skippingFile (path : String)
  /-- The cutoff filter's "[INFO] Skipping file ... after the specified
  'before' date" line. -/
  | skipAfterCutoff (path before : String)
  /-- "[DRY RUN] Would move: src => dst". -/
  | dryRunWouldMove (src dst : String)
  /-- "Rename failed, falling back to copy". -/
  | renameFallback (src dst : String)
  /-- "[DRY RUN] Would copy: src => dst" (inside `copyFilePreserve`). -/
  | dryRunWouldCopy (src dst : String)
  /-- "[DRY RUN] Would remove original". -/
  | dryRunWouldRemove (src : String)
  /-- `locMsg("moved_file")`. -/
  | movedFile (src dst : String)
  /-- `locMsg("move_error")`. -/
  | moveError (src dst : String)
deriving DecidableEq, Repr

/-- `os.Stat` succeeding: the path names an existing file or directory. -/
def fileExists (fs : FS) (path : String) : Bool :=
  fs.files.contains path || fs.dirs.contains path

/-- `os.MkdirAll(d, 0755)`: records the directory (ancestors are elided —
no claim consults them); succeeds trivially when the directory exists,
always fails on the empty path (ENOENT), otherwise as the oracle decides. -/
def mkdirAllOp (env : Env) (d : String) (fs : FS) : FS × Except Err Unit :=
  if fs.dirs.contains d then (fs, .ok ())
  else if d = "" then (fs, .error (.mkdirFailed d))
  else if env.mkdirOk d then ({ fs with dirs := d :: fs.dirs }, .ok ())
  else (fs, .error (.mkdirFailed d))

/-- Effect of a successful `os.Rename(src, dst)` on the file set. -/
def renameFs (src dst : String) (fs : FS) : FS :=
  { fs with files := dst :: fs.files.filter (fun p => p ≠ src) }

/-- Effect of a successful `os.Create(dst)` (plus the byte copy). -/
def createFileFs (dst : String) (fs : FS) : FS :=
  if fs.files.contains dst then fs else { fs with files := dst :: fs.files }

/-- Effect of a successful `os.Remove(src)`. -/
def removeFileFs (src : String) (fs : FS) : FS :=
  { fs with files := fs.files.filter (fun p => p ≠ src) }

/-! ## Configuration (`config.go`) and walk entries -/

/-- `FilesMoveConfiguration`; `loggerPath` stands for `cfg.Logger.Name()`,
the path of the open log file. -/
structure FilesMoveConfiguration where
  inputFolder : String
  outputFolder : String
  language : String
  preserveStructure : Bool
  dryRun : Bool
  before : Option String
  loggerPath : String
  folderFormat : FolderFormat

/-- One `filepath.Walk` callback invocation: the visited path, the
`os.FileInfo` facets the engine reads (`IsDir`, `ModTime`), and whether the
walk passed a non-nil traversal error for this entry. -/
structure Entry where
  path : String
  isDir : Bool
  modTime : Timestamp
  walkErr : Bool

/-! ## The relocation engine (the `organizeFiles` variant with dry-run and
the filter pipeline) -/

/-- `buildQuarterFolder` (engine copy): identical construction to
`createYearThenQuartersFolder`. -/
def buildQuarterFolder (outputRoot : String) (modTime : Timestamp)
    (lang : String) : Except Err String :=
  let info := quarterInfoForMonth modTime.month lang
  if info.1 = 0 then .error .invalidMonth
  else .ok (joinPath (joinPath outputRoot (intRepr modTime.year)) ("Q" ++ intRepr info.1 ++ "_" ++ info.2))

/-- `buildHourFolder` (engine copy): `<outputFolder>/YYYY-MM-DD/HHam|pm`,
rejecting `year == 0`, a month outside 1–12 or a day outside 1–31. -/
def buildHourFolder (outputFolder : String) (modTime : Timestamp) :
    Except Err String :=
  if modTime.year = 0 ∨ modTime.month < 1 ∨ modTime.month > 12 ∨
      modTime.day < 1 ∨ modTime.day > 31 then .error .invalidDate
  else
    let dayFolder := intRepr modTime.year ++ "-" ++ pad2 modTime.month ++ "-" ++ pad2 modTime.day
    .ok (joinPath (joinPath outputFolder dayFolder) (hourLabel modTime))

/-- The pure dispatch inside `buildAndEnsureTargetDir`: `dir` stays the
zero value `""` (with a nil error) for a format matched by neither branch. -/
def buildPartitionDir (outputFolder : String) (modTime : Timestamp)
    (cfg : FilesMoveConfiguration) : Except Err String :=
  if cfg.folderFormat = .YearThenQuarters then
    buildQuarterFolder outputFolder modTime cfg.language
  else if cfg.folderFormat = .DayThenHours then
    buildHourFolder outputFolder modTime
  else .ok ""

/-- `buildAndEnsureTargetDir`: build the partition folder, then — unless in
dry-run — create it with `os.MkdirAll` before returning it. -/
def buildAndEnsureTargetDir (env : Env) (outputFolder : String)
    (modTime : Timestamp) (cfg : FilesMoveConfiguration) (fs : FS) :
    FS × Except Err String :=
  match buildPartitionDir outputFolder modTime cfg with
  | .error e => (fs, .error e)
  | .ok dir =>
    if cfg.dryRun then (fs, .ok dir)
    else
      match mkdirAllOp env dir fs with
      | (fs1, .ok ()) => (fs1, .ok dir)
      | (fs1, .error e) => (fs1, .error e)

/-- `filepath.Rel(base, target)` for the walk's use case: the target lies
under the base. Fails (like Go on unrelated lexical shapes) otherwise. -/
def relPath (base target : String) : Option String :=
  if base = target then some "."
  else if (base ++ "/").isPrefixOf target then
    some (target.drop (base.length + 1))
  else none

/-- `determineTargetPath`: partition folder plus either the bare base name
or the input-relative path, depending on `PreserveStructure`. -/
def determineTargetPath (env : Env) (path : String) (e : Entry)
    (cfg : FilesMoveConfiguration) (fs : FS) : FS × Except Err String :=
  match buildAndEnsureTargetDir env cfg.outputFolder e.modTime cfg fs with
  | (fs1, .error err) => (fs1, .error err)
  | (fs1, .ok quarterDir) =>
    if !cfg.preserveStructure then (fs1, .ok (joinPath quarterDir (baseName path)))
    else
      match relPath cfg.inputFolder path with
      | none => (fs1, .error .relPathFailed)
      | some rp => (fs1, .ok (joinPath quarterDir rp))

/-- `determineTargetPathUnsafe`: same computation with both error returns
discarded (`quarterDir` and `relPath` fall back to their zero value `""`). -/
def determineTargetPathUnsafe (env : Env) (path : String) (e : Entry)
    (cfg : FilesMoveConfiguration) (fs : FS) : FS × String :=
  let built := buildAndEnsureTargetDir env cfg.outputFolder e.modTime cfg fs
  let quarterDir := match built.2 with | .ok d => d | .error _ => ""
  if !cfg.preserveStructure then (built.1, joinPath quarterDir (baseName path))
  else
    let rp := (relPath cfg.inputFolder path).getD ""
    (built.1, joinPath quarterDir rp)

/-- `ensureTargetDirectory`: a no-op in dry-run, else `os.MkdirAll` on the
target's parent directory. -/
def ensureTargetDirectory (env : Env) (targetPath : String) (dryRun : Bool)
    (fs : FS) : FS × Except Err Unit :=
  if dryRun then (fs, .ok ())
  else mkdirAllOp env (dirName targetPath) fs

/-- `isPathTheLogger`: absolute-path equality with the open log file. -/
def isPathTheLogger (env : Env) (path : String)
    (cfg : FilesMoveConfiguration) : Bool :=
  env.absPath path == env.absPath cfg.loggerPath

/-- `isPathAlreadyRelocated`: absolute-path equality of source and target. -/
def isPathAlreadyRelocated (env : Env) (path targetPath : String) : Bool :=
  env.absPath path == env.absPath targetPath

/-! ## Collision resolver (`ensureUniquePath`) -/

/-- The candidate of round `i`: `fmt.Sprintf("%s(%d)%s", name, i, ext)`
joined back onto the directory. -/
def uniqueCandidate (dir name ext : String) (i : Nat) : String :=
  joinPath dir (name ++ "(" ++ natRepr i ++ ")" ++ ext)

/-- The scan loop of `ensureUniquePath`: try `name(i)ext` for `i = 1, 2, …`
until a free path appears. The Go loop is unbounded; the model carries fuel
and `none` marks exhaustion. -/
def uniqueLoop (fs : FS) (dir name ext : String) : Nat → Nat → Option String
  | _, 0 => none
  | i, fuel + 1 =>
    let newPath := uniqueCandidate dir name ext i
    if !fileExists fs newPath then some newPath
    else uniqueLoop fs dir name ext (i + 1) fuel

/-- `ensureUniquePath`: return the path unchanged when nothing exists
there, else scan for the first free numbered variant. -/
def ensureUniquePath (fs : FS) (path : String) (fuel : Nat) : Option String :=
  if !fileExists fs path then some path
  else
    let dir := dirName path
    let base := baseName path
    let ext := extName base
    let name := String.mk (base.toList.take (base.toList.length - ext.toList.length))
    uniqueLoop fs dir name ext 1 fuel

/-! ## Move and copy (`moveFile`, `copyFilePreserve`) -/

/-- Result triple of an effectful engine step. -/
structure RunResult (α : Type) where
  fs : FS
  events : List LogEvent
  res : Except Err α
deriving Repr

/-- `copyFilePreserve`: in dry-run only log; else create `dst`, stream the
bytes and restore `src`'s timestamps (`os.Chtimes` — not tracked in `FS`).
The oracle folds the open/create/copy/chtimes failure modes into one. -/
def copyFilePreserve (env : Env) (src dst : String) (dryRun : Bool)
    (fs : FS) : RunResult Unit :=
  if dryRun then ⟨fs, [.dryRunWouldCopy src dst], .ok ()⟩
  else if env.copyOk src dst then ⟨createFileFs dst fs, [], .ok ()⟩
  else ⟨fs, [], .error (.copyFallbackFailed src dst)⟩

/-- `moveFile`: resolve collisions first; in dry-run log the would-be move;
else try `os.Rename`, falling back to copy-then-remove-original. -/
def moveFile (env : Env) (fuel : Nat) (src dst : String) (dryRun : Bool)
    (fs : FS) : RunResult Unit :=
  match ensureUniquePath fs dst fuel with
  | none => ⟨fs, [], .error .uniquePathFuel⟩
  | some uniqueDst =>
    if dryRun then ⟨fs, [.dryRunWouldMove src uniqueDst], .ok ()⟩
    else if env.renameOk src uniqueDst then ⟨renameFs src uniqueDst fs, [], .ok ()⟩
    else
      let fallbackEv := LogEvent.renameFallback src uniqueDst
      let copied := copyFilePreserve env src uniqueDst dryRun fs
      match copied.res with
      | .error e => ⟨copied.fs, fallbackEv :: copied.events, .error e⟩
      | .ok () =>
        if dryRun then
          ⟨copied.fs, fallbackEv :: copied.events ++ [.dryRunWouldRemove src], .ok ()⟩
        else if env.removeOk src then
          ⟨removeFileFs src copied.fs, fallbackEv :: copied.events, .ok ()⟩
        else
          ⟨copied.fs, fallbackEv :: copied.events, .error (.removeOriginalFailed src)⟩

/-! ## Skip filters (`applySkipFilters` and the three predicates) -/

/-- A filter's Go return value `(skip bool, err error)` with its state and
log effects. -/
structure FilterResult where
  fs : FS
  events : List LogEvent
  skip : Bool
  err : Option Err
deriving Repr

/-- `isPathAlreadyRelocatedFilter`: compare against the (unsafely)
computed destination; log `skipping_file` on a hit. -/
def isPathAlreadyRelocatedFilter (env : Env) (path : String) (e : Entry)
    (cfg : FilesMoveConfiguration) (fs : FS) : FilterResult :=
  let target := determineTargetPathUnsafe env path e cfg fs
  if isPathAlreadyRelocated env path target.2 then
    ⟨target.1, [.skippingFile path], true, none⟩
  else ⟨target.1, [], false, none⟩

/-- `isLoggerPathFilter`: skip (and log `skipping_file`) when the path is
the active log file. -/
def isLoggerPathFilter (env : Env) (path : String) (_e : Entry)
    (cfg : FilesMoveConfiguration) (fs : FS) : FilterResult :=
  if isPathTheLogger env path cfg then ⟨fs, [.skippingFile path], true, none⟩
  else ⟨fs, [], false, none⟩

/-- `isFilterByBeforeConfiguration`: inactive without a configured cutoff;
else reparse the cutoff string and skip files modified after the parsed
midnight instant, logging the dedicated reason line. -/
def isFilterByBeforeConfiguration (_env : Env) (path : String) (e : Entry)
    (cfg : FilesMoveConfiguration) (fs : FS) : FilterResult :=
  match cfg.before with
  | none => ⟨fs, [], false, none⟩
  | some beforeStr =>
    match timeParseDate beforeStr with
    | none => ⟨fs, [], false, some .invalidBeforeDate⟩
    | some (y, m, d) =>
      if e.modTime.after (midnight y m d) then
        ⟨fs, [.skipAfterCutoff path beforeStr], true, none⟩
      else ⟨fs, [], false, none⟩

/-- The filter pipeline: run each filter in turn, stopping at the first
whose `skip` or `err` is set. -/
def applyFilterList (env : Env) (path : String) (e : Entry)
    (cfg : FilesMoveConfiguration) :
    List (Env → String → Entry → FilesMoveConfiguration → FS → FilterResult) →
    FS → FilterResult
  | [], fs => ⟨fs, [], false, none⟩
  | f :: rest, fs =>
    let r := f env path e cfg fs
    if r.skip || r.err.isSome then r
    else
      let r2 := applyFilterList env path e cfg rest r.fs
      ⟨r2.fs, r.events ++ r2.events, r2.skip, r2.err⟩

/-- `applySkipFilters`: the fixed filter list. -/
def applySkipFilters (env : Env) (path : String) (e : Entry)
    (cfg : FilesMoveConfiguration) (fs : FS) : FilterResult :=
  applyFilterList env path e cfg
    [isPathAlreadyRelocatedFilter, isLoggerPathFilter, isFilterByBeforeConfiguration] fs

/-! ## The walk callback and the walk (`organizeFiles`) -/

/-- One `filepath.Walk` callback invocation of `organizeFiles`: trim the
path, pass traversal errors through the log, skip directories, run the
filters, compute and ensure the target, move, and log the outcome. -/
def stepEntry (env : Env) (fuel : Nat) (cfg : FilesMoveConfiguration)
    (e : Entry) (fs : FS) : RunResult Unit :=
  let path := trimSpace e.path
  if e.walkErr then ⟨fs, [.errorOrganizing], .ok ()⟩
  else if e.isDir then ⟨fs, [], .ok ()⟩
  else
    let fr := applySkipFilters env path e cfg fs
    match fr.err with
    | some err => ⟨fr.fs, fr.events, .error err⟩
    | none =>
      if fr.skip then ⟨fr.fs, fr.events, .ok ()⟩
      else
        match determineTargetPath env path e cfg fr.fs with
        | (fs2, .error err) => ⟨fs2, fr.events, .error err⟩
        | (fs2, .ok targetPath) =>
          match ensureTargetDirectory env targetPath cfg.dryRun fs2 with
          | (fs3, .error err) => ⟨fs3, fr.events, .error err⟩
          | (fs3, .ok ()) =>
            let mv := moveFile env fuel path targetPath cfg.dryRun fs3
            match mv.res with
            | .error err =>
              ⟨mv.fs, fr.events ++ mv.events ++ [.moveError path targetPath], .error err⟩
            | .ok () =>
              if !cfg.dryRun then
                ⟨mv.fs, fr.events ++ mv.events ++ [.movedFile path targetPath], .ok ()⟩
              else ⟨mv.fs, fr.events ++ mv.events, .ok ()⟩

/-- `organizeFiles`: fold the callback over the walk's entries in order;
`filepath.Walk` aborts as soon as the callback returns a non-nil error. -/
def organizeFiles (env : Env) (fuel : Nat) (cfg : FilesMoveConfiguration) :
    List Entry → FS → RunResult Unit
  | [], fs => ⟨fs, [], .ok ()⟩
  | e :: rest, fs =>
    let r := stepEntry env fuel cfg e fs
    match r.res with
    | .error err => ⟨r.fs, r.events, .error err⟩
    | .ok () =>
      let r2 := organizeFiles env fuel cfg rest r.fs
      ⟨r2.fs, r.events ++ r2.events, r2.res⟩

/-! ## Program entry point (`main.go`) -/

/-- `checkFolderExists`: `os.Stat` plus `IsDir`. -/
def checkFolderExistsFs (fs : FS) (folderPath : String) : Bool :=
  fs.dirs.contains folderPath

/-- `setupLogger`: create/open the log file (append mode) in the output
folder. -/
def setupLogger (env : Env) (logPath : String) (fs : FS) :
    FS × Except Err Unit :=
  if env.createOk logPath then (createFileFs logPath fs, .ok ())
  else (fs, .error .createLogFailed)

/-- `main` after argument parsing: unconditionally `os.MkdirAll` the output
folder, open the log file, validate the input folder, then walk. The
`logPath` parameter stands for the timestamped log file name `setupLogger`
chooses. -/
def mainRun (env : Env) (fuel : Nat) (cfg : FilesMoveConfiguration)
    (logPath : String) (entries : List Entry) (fs : FS) : RunResult Unit :=
  match mkdirAllOp env cfg.outputFolder fs with
  | (fs1, .error e) => ⟨fs1, [], .error e⟩
  | (fs1, .ok ()) =>
    match setupLogger env logPath fs1 with
    | (fs2, .error e) => ⟨fs2, [], .error e⟩
    | (fs2, .ok ()) =>
      if !checkFolderExistsFs fs2 cfg.inputFolder then
        ⟨fs2, [], .error .inputFolderInvalid⟩
      else organizeFiles env fuel cfg entries fs2

/-! ## `createFolderFormatDirectory` (`quarter.go` dispatch) -/

/-- `createFolderFormatDirectory`: dispatch on the partition scheme (the
Go `default` branch is unreachable for the closed enumeration). -/
def createFolderFormatDirectory (outputRoot : String) (modTime : Timestamp)
    (cfg : FilesMoveConfiguration) : Except Err String :=
  match cfg.folderFormat with
  | .YearThenQuarters => createYearThenQuartersFolder outputRoot modTime cfg.language
  | .DayThenHours => createDayThenHoursFolder outputRoot modTime
  | .HalfYears => createHalfYearsFolder outputRoot modTime cfg.language

/-! ## Spec-side helper definitions (used only to state claims) -/

/-- The spec's fixed tri-month grouping of months: 1–3, 4–6, 7–9, 10–12. -/
def triMonthGroup (m : Int) : Int :=
  if m ≤ 3 then 1 else if m ≤ 6 then 2 else if m ≤ 9 then 3 else 4

/-- The spec's label rule: the language's label for the quarter when that
language has a label table, else the English label. -/
def specQuarterLabel (lang : String) (q : Int) : String :=
  if (quartersTable lang).length = 0 then (quartersTable "en").getD (q - 1).toNat ""
  else (quartersTable lang).getD (q - 1).toNat ""

/-- The numbered collision candidate exactly as `ensureUniquePath` forms
it from a path: the disambiguator `(i)` inserted immediately before the
file extension. -/
def insertDisambiguator (path : String) (i : Nat) : String :=
  let dir := dirName path
  let base := baseName path
  let ext := extName base
  let name := String.mk (base.toList.take (base.toList.length - ext.toList.length))
  uniqueCandidate dir name ext i

/-! ## Concrete configurations, environments and entries for witnesses -/

/-- Environment in which every syscall succeeds and paths are already
absolute (`filepath.Abs` is the identity). -/
def envOracle : Env :=
  ⟨fun _ _ => true, fun _ _ => true, fun _ => true, fun _ => true, fun _ => true, fun s => s⟩

/-- Environment in which renaming and copying `/in/a.txt` fail (as for a
permissions problem on that one file) and everything else succeeds. -/
def envFailA : Env :=
  ⟨fun src _ => src != "/in/a.txt", fun src _ => src != "/in/a.txt",
   fun _ => true, fun _ => true, fun _ => true, fun s => s⟩

/-- Dry-run configuration, no cutoff, year-quarter scheme. -/
def cfgDry : FilesMoveConfiguration :=
  ⟨"/in", "/out", "en", false, true, none, "/log", .YearThenQuarters⟩

/-- Live (non-dry-run) configuration, no cutoff, year-quarter scheme. -/
def cfgLive : FilesMoveConfiguration :=
  ⟨"/in", "/out", "en", false, false, none, "/log", .YearThenQuarters⟩

/-- Live configuration whose log file lies inside the input tree. -/
def cfgLoggerInside : FilesMoveConfiguration :=
  ⟨"/in", "/out", "en", false, false, none, "/in/l.log", .YearThenQuarters⟩

/-- Dry-run configuration whose log file path coincides with a file that
already sits at its computed destination. -/
def cfgLoggerAtDest : FilesMoveConfiguration :=
  ⟨"/in", "/out", "en", false, true, none, "/out/2024/Q2_Apr-Jun/f.txt", .YearThenQuarters⟩

/-- Live configuration with a `--before 2024-06-30` cutoff. -/
def cfgCutoff : FilesMoveConfiguration :=
  ⟨"/in", "/out", "en", false, false, some "2024-06-30", "/log", .YearThenQuarters⟩

/-- Live configuration using the day-hour scheme. -/
def cfgDayHour : FilesMoveConfiguration :=
  ⟨"/in", "/out", "en", false, false, none, "/log", .DayThenHours⟩

/-- A file sitting exactly at its computed year-quarter destination. -/
def entryAtDest : Entry :=
  ⟨"/out/2024/Q2_Apr-Jun/f.txt", false, ⟨2024, 5, 10, 0, 0⟩, false⟩

/-- The same path with a different modification year, so its computed
destination differs from where it sits. -/
def entryAtDestOtherYear : Entry :=
  ⟨"/out/2024/Q2_Apr-Jun/f.txt", false, ⟨2023, 5, 10, 0, 0⟩, false⟩

/-- An ordinary input file. -/
def entryA : Entry := ⟨"/in/a.txt", false, ⟨2024, 5, 10, 0, 0⟩, false⟩

/-- A second ordinary input file. -/
def entryB : Entry := ⟨"/in/b.txt", false, ⟨2024, 5, 10, 0, 0⟩, false⟩

/-- The in-tree log file of `cfgLoggerInside`, as a walk entry. -/
def entryLogFile : Entry := ⟨"/in/l.log", false, ⟨2024, 5, 10, 0, 0⟩, false⟩

/-- A file modified at noon on the cutoff day of `cfgCutoff`. -/
def entryOnCutoffDay : Entry := ⟨"/in/f.txt", false, ⟨2024, 6, 30, 12, 0⟩, false⟩

/-- Filesystem holding the two input files of `entryA`/`entryB`. -/
def fsTwoInputs : FS := ⟨["/in", "/out"], ["/in/a.txt", "/in/b.txt"]⟩

/-- Filesystem holding the file of `entryAtDest`. -/
def fsAtDest : FS := ⟨["/in", "/out"], ["/out/2024/Q2_Apr-Jun/f.txt"]⟩

/-- Filesystem with one file occupying a collision candidate. -/
def fsOneCollision : FS := ⟨[], ["/o/doc.pdf"]⟩

/-- Filesystem with the candidate and its `(1)` variant both occupied. -/
def fsTwoCollisions : FS := ⟨[], ["/o/doc.pdf", "/o/doc(1).pdf"]⟩

/-! ## C9: partition-scheme tag parsing -/

/-- C9. For every partition-scheme value `f`, parsing the canonical tag
`String(f)` returns `f`; parsing the Spanish-localized spelling of `f`'s
tag also returns `f`; every string accepted by `ParseFolderFormat` is one
of those six exact tags (so matching is case-sensitive); and every other
string yields an error, never a silently defaulted scheme. -/
theorem parseFolderFormat_roundtrip :
    (∀ f, ParseFolderFormat (stateName f) = .ok f) ∧
    (∀ f, ParseFolderFormat (spanishStateName f) = .ok f) ∧
    (∀ s f, ParseFolderFormat s = .ok f → s = stateName f ∨ s = spanishStateName f) ∧
    (∀ s, reverseStateName s = none →
      ParseFolderFormat s = .error ("invalid FolderFormat: " ++ s)) := by
  refine ⟨?_, ?_, ?_, ?_⟩
  · intro f; cases f <;> rfl
  · intro f; cases f <;> rfl
  · intro s f h
    simp only [ParseFolderFormat, reverseStateName] at h
    split_ifs at h with h1 h2 h3 h4 h5 h6 <;>
      simp only [Except.ok.injEq] at h <;> subst h <;> subst_vars <;> simp [stateName, spanishStateName]
  · intro s h
    simp [ParseFolderFormat, h]

/-- Witness for `parseFolderFormat_roundtrip` at the canonical
year-quarter tag. -/
theorem parseFolderFormat_roundtrip_witness :
    "year-then-quarters" = stateName .YearThenQuarters ∨
    "year-then-quarters" = spanishStateName .YearThenQuarters :=
  parseFolderFormat_roundtrip.2.2.1 "year-then-quarters" .YearThenQuarters rfl

/-! ## C6 and C8: partition-path computation -/

/-- For an in-range month the quarter info is the spec's quarter number
and label. -/
theorem quarterInfo_fst (lang : String) (m : Int) (h1 : 1 ≤ m) (h2 : m ≤ 12) :
    quarterInfoForMonth m lang = ((m - 1) / 3 + 1, specQuarterLabel lang ((m - 1) / 3 + 1)) := by
  have hg : ¬(m < 1 ∨ m > 12) := by omega
  simp only [quarterInfoForMonth, hg, if_false, specQuarterLabel]
  split <;> rfl

/-- The computed quarter number lies in 1–4. -/
theorem quarterNum_bounds (m : Int) (h1 : 1 ≤ m) (h2 : m ≤ 12) :
    1 ≤ (m - 1) / 3 + 1 ∧ (m - 1) / 3 + 1 ≤ 4 := by
  interval_cases m <;> decide

/-- The computed quarter number agrees with the spec's fixed tri-month
grouping. -/
theorem quarterNum_eq_triMonthGroup (m : Int) (h1 : 1 ≤ m) (h2 : m ≤ 12) :
    (m - 1) / 3 + 1 = triMonthGroup m := by
  interval_cases m <;> decide

/-- The localized quarter label is never the failed-lookup value. -/
theorem specQuarterLabel_ne_empty (lang : String) (q : Int) (h1 : 1 ≤ q) (h2 : q ≤ 4) :
    specQuarterLabel lang q ≠ "" := by
  by_cases he : lang = "en"
  · subst he; interval_cases q <;> decide
  · by_cases hs : lang = "es"
    · subst hs; interval_cases q <;> decide
    · simp only [specQuarterLabel, quartersTable, he, hs, if_false]
      interval_cases q <;> decide

/-- C6. For every timestamp with month in 1–12 and every language tag, the
year-quarter partition path is `<root>/<year>/Q<q>_<LABEL>` with
`q = ((month-1) div 3) + 1` and `LABEL` the language's label for quarter
`q` when the language has a label table, else the English label; the
lookup never fails, and any two months in the same fixed tri-month group
yield the same quarter number. -/
theorem createYearThenQuartersFolder_spec (root lang : String) (t : Timestamp)
    (h1 : 1 ≤ t.month) (h2 : t.month ≤ 12) :
    createYearThenQuartersFolder root t lang =
      .ok (joinPath (joinPath root (intRepr t.year))
        ("Q" ++ intRepr ((t.month - 1) / 3 + 1) ++ "_" ++
          specQuarterLabel lang ((t.month - 1) / 3 + 1))) ∧
    specQuarterLabel lang ((t.month - 1) / 3 + 1) ≠ "" ∧
    (∀ m2 : Int, 1 ≤ m2 → m2 ≤ 12 → triMonthGroup m2 = triMonthGroup t.month →
      (quarterInfoForMonth m2 lang).1 = (quarterInfoForMonth t.month lang).1) := by
  obtain ⟨hb1, hb2⟩ := quarterNum_bounds t.month h1 h2
  have hq := quarterInfo_fst lang t.month h1 h2
  refine ⟨?_, specQuarterLabel_ne_empty lang _ hb1 hb2, ?_⟩
  · simp only [createYearThenQuartersFolder, hq, formatQuarterFolder]
    have hnz : ¬((t.month - 1) / 3 + 1 = 0) := by omega
    simp [hnz]
  · intro m2 g1 g2 hg
    rw [quarterInfo_fst lang m2 g1 g2, quarterInfo_fst lang t.month h1 h2]
    simp only
    rw [quarterNum_eq_triMonthGroup m2 g1 g2, quarterNum_eq_triMonthGroup t.month h1 h2, hg]

/-- Witness for `createYearThenQuartersFolder_spec`: May 2024 in Spanish. -/
theorem createYearThenQuartersFolder_spec_witness :
    createYearThenQuartersFolder "/out" ⟨2024, 5, 10, 0, 0⟩ "es" =
      .ok "/out/2024/Q2_Abr-Jun" :=
  ((createYearThenQuartersFolder_spec "/out" "es" ⟨2024, 5, 10, 0, 0⟩
    (by decide) (by decide)).1).trans (by rfl)

/-- C8 (amended). The partition-path computation succeeds exactly when:
the month lies in 1–12, for the year-quarter and half-year schemes; and
additionally the year is positive and the day lies in 1–31, for the
day-hour scheme. In particular a day-hour timestamp with year 0 fails even
though its month is in range. -/
theorem createFolderFormatDirectory_ok_iff
    (root : String) (cfg : FilesMoveConfiguration) (t : Timestamp) :
    (∃ p, createFolderFormatDirectory root t cfg = .ok p) ↔
      (match cfg.folderFormat with
       | .YearThenQuarters => 1 ≤ t.month ∧ t.month ≤ 12
       | .HalfYears => 1 ≤ t.month ∧ t.month ≤ 12
       | .DayThenHours =>
           0 < t.year ∧ 1 ≤ t.month ∧ t.month ≤ 12 ∧ 1 ≤ t.day ∧ t.day ≤ 31) := by
  cases hf : cfg.folderFormat
  · simp only [createFolderFormatDirectory, hf]
    constructor
    · rintro ⟨p, hp⟩
      by_contra hc
      have hg : t.month < 1 ∨ t.month > 12 := by omega
      simp [createYearThenQuartersFolder, quarterInfoForMonth, hg] at hp
    · rintro ⟨h1, h2⟩
      have hq := quarterInfo_fst cfg.language t.month h1 h2
      have hnz : ¬((t.month - 1) / 3 + 1 = 0) := by
        have := quarterNum_bounds t.month h1 h2; omega
      simp only [createYearThenQuartersFolder, hq, if_neg hnz]
      exact ⟨_, rfl⟩
  · simp only [createFolderFormatDirectory, hf]
    constructor
    · rintro ⟨p, hp⟩
      simp only [createDayThenHoursFolder] at hp
      by_contra hc
      have hv : isValidDate t.year t.month t.day = false := by
        simp only [isValidDate, Bool.and_eq_false_iff]
        simp only [decide_eq_false_iff_not, not_le, not_lt]
        omega
      simp [hv] at hp
    · rintro ⟨h1, h2, h3, h4, h5⟩
      have hv : isValidDate t.year t.month t.day = true := by
        simp only [isValidDate, Bool.and_eq_true, decide_eq_true_eq]
        omega
      simp only [createDayThenHoursFolder, hv, Bool.not_true, Bool.false_eq_true, if_false]
      exact ⟨_, rfl⟩
  · simp only [createFolderFormatDirectory, hf]
    constructor
    · rintro ⟨p, hp⟩
      by_contra hc
      have hg : t.month < 1 ∨ t.month > 12 := by omega
      simp [createHalfYearsFolder, semesterInfoForMonth, hg] at hp
    · rintro ⟨h1, h2⟩
      have hg : ¬(t.month < 1 ∨ t.month > 12) := by omega
      simp only [createHalfYearsFolder, semesterInfoForMonth, hg, if_false]
      split
      · rw [if_neg (by norm_num : ¬(2 : Int) = 0)]
        exact ⟨_, rfl⟩
      · rw [if_neg (by norm_num : ¬(1 : Int) = 0)]
        exact ⟨_, rfl⟩

/-- C8 counterexample to the claim as stated: under the day-hour scheme, a
timestamp with year 0 has its month within 1–12 yet the partition-path
computation fails. -/
theorem createFolderFormatDirectory_yearZero_fails :
    createFolderFormatDirectory "/out" ⟨0, 6, 15, 10, 0⟩ cfgDayHour = .error .invalidDate ∧
    1 ≤ (⟨0, 6, 15, 10, 0⟩ : Timestamp).month ∧
    (⟨0, 6, 15, 10, 0⟩ : Timestamp).month ≤ 12 :=
  ⟨rfl, by decide, by decide⟩

/-! ## C4: the before-cutoff filter -/

/-- C4 (amended). With a configured, well-formed cutoff date, the
before-cutoff filter skips a file exactly when its modification time is
strictly after midnight at the start of the cutoff date (so a file
modified later on the cutoff day itself is skipped); a cutoff skip is
never an error and touches no filesystem state. -/
theorem isFilterByBeforeConfiguration_spec (env : Env) (path : String) (e : Entry)
    (cfg : FilesMoveConfiguration) (fs : FS) (s : String) (y m d : Int)
    (hb : cfg.before = some s) (hp : timeParseDate s = some (y, m, d)) :
    ((isFilterByBeforeConfiguration env path e cfg fs).skip = true ↔
      e.modTime.after (midnight y m d) = true) ∧
    ((isFilterByBeforeConfiguration env path e cfg fs).skip = true →
      (isFilterByBeforeConfiguration env path e cfg fs).err = none) ∧
    (isFilterByBeforeConfiguration env path e cfg fs).fs = fs := by
  simp only [isFilterByBeforeConfiguration, hb, hp]
  split <;> simp_all

/-- Witness for `isFilterByBeforeConfiguration_spec`: the 2024-06-30
cutoff against a file modified at noon that day. -/
theorem isFilterByBeforeConfiguration_spec_witness :
    (isFilterByBeforeConfiguration envOracle "/in/f.txt" entryOnCutoffDay cfgCutoff
      ⟨[], []⟩).skip = true ↔
      entryOnCutoffDay.modTime.after (midnight 2024 6 30) = true :=
  (isFilterByBeforeConfiguration_spec envOracle "/in/f.txt" entryOnCutoffDay cfgCutoff
    ⟨[], []⟩ "2024-06-30" 2024 6 30 rfl rfl).1

/-- C4 counterexample to the claim as stated: with cutoff `2024-06-30`, a
file modified at noon **on** the cutoff date (hence modified on-or-before
that date, which the claim says remains eligible) is skipped. -/
theorem beforeFilter_skips_file_on_cutoff_date :
    (isFilterByBeforeConfiguration envOracle "/in/f.txt" entryOnCutoffDay cfgCutoff
      ⟨[], []⟩).skip = true ∧
    cfgCutoff.before = some "2024-06-30" ∧
    entryOnCutoffDay.modTime.year = 2024 ∧ entryOnCutoffDay.modTime.month = 6 ∧
    entryOnCutoffDay.modTime.day = 30 :=
  ⟨rfl, rfl, rfl, rfl, rfl⟩

/-! ## C5: the skip-filter pipeline -/

/-- A filter list all of whose members only report a skip with a nil
error yields a pipeline result with the same property. -/
theorem applyFilterList_skip_no_err (env : Env) (path : String) (e : Entry)
    (cfg : FilesMoveConfiguration)
    (filters : List (Env → String → Entry → FilesMoveConfiguration → FS → FilterResult))
    (h : ∀ f ∈ filters, ∀ fs' : FS,
      (f env path e cfg fs').skip = true → (f env path e cfg fs').err = none) :
    ∀ fs : FS, (applyFilterList env path e cfg filters fs).skip = true →
      (applyFilterList env path e cfg filters fs).err = none := by
  induction filters with
  | nil => intro fs hs; simp [applyFilterList] at hs
  | cons f rest ih =>
    intro fs hs
    have hf := h f (by simp)
    have hrest : ∀ g ∈ rest, ∀ fs' : FS,
        (g env path e cfg fs').skip = true → (g env path e cfg fs').err = none :=
      fun g hg => h g (by simp [hg])
    simp only [applyFilterList] at hs ⊢
    by_cases hc : ((f env path e cfg fs).skip || (f env path e cfg fs).err.isSome) = true
    · simp only [hc, if_true] at hs ⊢
      exact hf fs hs
    · simp only [hc, Bool.false_eq_true, if_false] at hs ⊢
      exact ih hrest _ hs

/-- The already-relocated filter only reports a skip with a nil error. -/
theorem isPathAlreadyRelocatedFilter_skip_no_err (env : Env) (path : String)
    (e : Entry) (cfg : FilesMoveConfiguration) (fs : FS) :
    (isPathAlreadyRelocatedFilter env path e cfg fs).skip = true →
      (isPathAlreadyRelocatedFilter env path e cfg fs).err = none := by
  simp only [isPathAlreadyRelocatedFilter]
  split <;> simp

/-- The log-file filter only reports a skip with a nil error. -/
theorem isLoggerPathFilter_skip_no_err (env : Env) (path : String)
    (e : Entry) (cfg : FilesMoveConfiguration) (fs : FS) :
    (isLoggerPathFilter env path e cfg fs).skip = true →
      (isLoggerPathFilter env path e cfg fs).err = none := by
  simp only [isLoggerPathFilter]
  split <;> simp

/-- The before-cutoff filter only reports a skip with a nil error. -/
theorem isFilterByBeforeConfiguration_skip_no_err (env : Env) (path : String)
    (e : Entry) (cfg : FilesMoveConfiguration) (fs : FS) :
    (isFilterByBeforeConfiguration env path e cfg fs).skip = true →
      (isFilterByBeforeConfiguration env path e cfg fs).err = none := by
  simp only [isFilterByBeforeConfiguration]
  rcases cfg.before with _ | s
  · simp
  · simp only
    rcases timeParseDate s with _ | ⟨⟨y, m, d⟩⟩
    · simp
    · simp only
      split <;> simp

/-- C5 (amended). The skip decision evaluates the three predicates in the
fixed order already-relocated, log-file, before-cutoff; the first filter
that reports a skip (or an error) decides the outcome and short-circuits
the later filters (each later filter runs on the state the earlier ones
left behind); the cutoff filter is inert when no cutoff is configured; and
a skip is never an error. Skips are logged, but the already-relocated and
log-file skips share one generic message — only the cutoff skip carries
its distinguishing reason. -/
theorem applySkipFilters_spec (env : Env) (path : String) (e : Entry)
    (cfg : FilesMoveConfiguration) (fs : FS) :
    ((((isPathAlreadyRelocatedFilter env path e cfg fs).skip ||
        (isPathAlreadyRelocatedFilter env path e cfg fs).err.isSome) = true →
      applySkipFilters env path e cfg fs = isPathAlreadyRelocatedFilter env path e cfg fs) ∧
    ((((isPathAlreadyRelocatedFilter env path e cfg fs).skip ||
        (isPathAlreadyRelocatedFilter env path e cfg fs).err.isSome) = false) →
      (((isLoggerPathFilter env path e cfg (isPathAlreadyRelocatedFilter env path e cfg fs).fs).skip ||
        (isLoggerPathFilter env path e cfg (isPathAlreadyRelocatedFilter env path e cfg fs).fs).err.isSome) = true) →
      applySkipFilters env path e cfg fs =
        ⟨(isLoggerPathFilter env path e cfg (isPathAlreadyRelocatedFilter env path e cfg fs).fs).fs,
         (isPathAlreadyRelocatedFilter env path e cfg fs).events ++
           (isLoggerPathFilter env path e cfg (isPathAlreadyRelocatedFilter env path e cfg fs).fs).events,
         (isLoggerPathFilter env path e cfg (isPathAlreadyRelocatedFilter env path e cfg fs).fs).skip,
         (isLoggerPathFilter env path e cfg (isPathAlreadyRelocatedFilter env path e cfg fs).fs).err⟩) ∧
    ((((isPathAlreadyRelocatedFilter env path e cfg fs).skip ||
        (isPathAlreadyRelocatedFilter env path e cfg fs).err.isSome) = false) →
      (((isLoggerPathFilter env path e cfg (isPathAlreadyRelocatedFilter env path e cfg fs).fs).skip ||
        (isLoggerPathFilter env path e cfg (isPathAlreadyRelocatedFilter env path e cfg fs).fs).err.isSome) = false) →
      applySkipFilters env path e cfg fs =
        ⟨(isFilterByBeforeConfiguration env path e cfg
            (isLoggerPathFilter env path e cfg (isPathAlreadyRelocatedFilter env path e cfg fs).fs).fs).fs,
         (isPathAlreadyRelocatedFilter env path e cfg fs).events ++
           ((isLoggerPathFilter env path e cfg (isPathAlreadyRelocatedFilter env path e cfg fs).fs).events ++
            (isFilterByBeforeConfiguration env path e cfg
              (isLoggerPathFilter env path e cfg (isPathAlreadyRelocatedFilter env path e cfg fs).fs).fs).events),
         (isFilterByBeforeConfiguration env path e cfg
            (isLoggerPathFilter env path e cfg (isPathAlreadyRelocatedFilter env path e cfg fs).fs).fs).skip,
         (isFilterByBeforeConfiguration env path e cfg
            (isLoggerPathFilter env path e cfg (isPathAlreadyRelocatedFilter env path e cfg fs).fs).fs).err⟩)) ∧
    (cfg.before = none →
      isFilterByBeforeConfiguration env path e cfg fs = ⟨fs, [], false, none⟩) ∧
    ((applySkipFilters env path e cfg fs).skip = true →
      (applySkipFilters env path e cfg fs).err = none) := by
  refine ⟨⟨?_, ?_, ?_⟩, ?_, ?_⟩
  · intro h1
    simp only [applySkipFilters, applyFilterList, h1, if_true]
  · intro h1 h2
    simp only [applySkipFilters, applyFilterList, h1, h2, Bool.false_eq_true, if_false, if_true]
  · intro h1 h2
    simp only [applySkipFilters, applyFilterList, h1, h2, Bool.false_eq_true, if_false]
    by_cases h3 : ((isFilterByBeforeConfiguration env path e cfg
        (isLoggerPathFilter env path e cfg (isPathAlreadyRelocatedFilter env path e cfg fs).fs).fs).skip ||
        (isFilterByBeforeConfiguration env path e cfg
        (isLoggerPathFilter env path e cfg (isPathAlreadyRelocatedFilter env path e cfg fs).fs).fs).err.isSome) = true
    · simp only [h3, if_true]
    · simp only [Bool.not_eq_true] at h3
      rcases Bool.or_eq_false_iff.mp h3 with ⟨hs, he⟩
      have he' : (isFilterByBeforeConfiguration env path e cfg
          (isLoggerPathFilter env path e cfg
            (isPathAlreadyRelocatedFilter env path e cfg fs).fs).fs).err = none :=
        Option.not_isSome_iff_eq_none.mp (by simp [he])
      simp [h3, hs, he']
  · intro hb
    simp [isFilterByBeforeConfiguration, hb]
  · exact applyFilterList_skip_no_err env path e cfg _
      (by
        intro f hf
        simp only [List.mem_cons, List.mem_singleton, List.not_mem_nil, or_false] at hf
        rcases hf with rfl | rfl | rfl
        · exact fun fs' => isPathAlreadyRelocatedFilter_skip_no_err env path e cfg fs'
        · exact fun fs' => isLoggerPathFilter_skip_no_err env path e cfg fs'
        · exact fun fs' => isFilterByBeforeConfiguration_skip_no_err env path e cfg fs') fs

/-- Witness for `applySkipFilters_spec`: a file already at its destination
stops the pipeline at the first filter. -/
theorem applySkipFilters_spec_witness :
    applySkipFilters envOracle "/out/2024/Q2_Apr-Jun/f.txt" entryAtDest cfgDry fsAtDest =
      isPathAlreadyRelocatedFilter envOracle "/out/2024/Q2_Apr-Jun/f.txt" entryAtDest cfgDry fsAtDest :=
  (applySkipFilters_spec envOracle "/out/2024/Q2_Apr-Jun/f.txt" entryAtDest cfgDry fsAtDest).1.1 rfl

/-- C5 counterexample to the claim as stated: two runs that skip the same
path for different reasons — once because the file is already at its
computed destination, once because it is the active log file — emit
identical log output, so the report does not carry the specific skip
reason. -/
theorem skipReason_not_observable :
    (stepEntry envOracle 5 cfgDry entryAtDest fsAtDest).events =
      [.skippingFile "/out/2024/Q2_Apr-Jun/f.txt"] ∧
    (stepEntry envOracle 5 cfgLoggerAtDest entryAtDestOtherYear fsAtDest).events =
      [.skippingFile "/out/2024/Q2_Apr-Jun/f.txt"] ∧
    (isPathAlreadyRelocatedFilter envOracle "/out/2024/Q2_Apr-Jun/f.txt"
      entryAtDest cfgDry fsAtDest).skip = true ∧
    (isPathAlreadyRelocatedFilter envOracle "/out/2024/Q2_Apr-Jun/f.txt"
      entryAtDestOtherYear cfgLoggerAtDest fsAtDest).skip = false ∧
    (isLoggerPathFilter envOracle "/out/2024/Q2_Apr-Jun/f.txt" entryAtDestOtherYear
      cfgLoggerAtDest
      (isPathAlreadyRelocatedFilter envOracle "/out/2024/Q2_Apr-Jun/f.txt"
        entryAtDestOtherYear cfgLoggerAtDest fsAtDest).fs).skip = true := by
  refine ⟨by decide, by decide, by decide, by decide, by decide⟩

/-! ## C7: the active log file is never relocated -/

/-- C7. A visited regular file whose absolute path equals the absolute
path of the run's log file is skipped: the callback reports success, logs
exactly the skip message, and emits no moved outcome (neither a live
`moved_file` log nor a dry-run would-move log), whatever the filesystem
contents and wherever the log file resides. -/
theorem stepEntry_never_moves_logger (env : Env) (fuel : Nat)
    (cfg : FilesMoveConfiguration) (e : Entry) (fs : FS)
    (hwalk : e.walkErr = false) (hdir : e.isDir = false)
    (habs : env.absPath (trimSpace e.path) = env.absPath cfg.loggerPath) :
    (stepEntry env fuel cfg e fs).events = [.skippingFile (trimSpace e.path)] ∧
    (stepEntry env fuel cfg e fs).res = .ok () ∧
    ∀ s d, LogEvent.movedFile s d ∉ (stepEntry env fuel cfg e fs).events ∧
      LogEvent.dryRunWouldMove s d ∉ (stepEntry env fuel cfg e fs).events := by
  have hlog : isPathTheLogger env (trimSpace e.path) cfg = true := by
    simp [isPathTheLogger, habs]
  have hpipe : applySkipFilters env (trimSpace e.path) e cfg fs =
      ⟨(determineTargetPathUnsafe env (trimSpace e.path) e cfg fs).1,
        [.skippingFile (trimSpace e.path)], true, none⟩ := by
    by_cases hrel : isPathAlreadyRelocated env (trimSpace e.path)
        (determineTargetPathUnsafe env (trimSpace e.path) e cfg fs).2 = true
    · simp [applySkipFilters, applyFilterList, isPathAlreadyRelocatedFilter, hrel]
    · simp [applySkipFilters, applyFilterList, isPathAlreadyRelocatedFilter, hrel,
        isLoggerPathFilter, hlog]
  have hstep : stepEntry env fuel cfg e fs =
      ⟨(determineTargetPathUnsafe env (trimSpace e.path) e cfg fs).1,
        [.skippingFile (trimSpace e.path)], .ok ()⟩ := by
    simp [stepEntry, hwalk, hdir, hpipe]
  rw [hstep]
  refine ⟨rfl, rfl, ?_⟩
  intro s d
  simp

/-- Witness for `stepEntry_never_moves_logger`: the log file sitting
inside the input tree. -/
theorem stepEntry_never_moves_logger_witness :
    (stepEntry envOracle 5 cfgLoggerInside entryLogFile
      ⟨["/in", "/out"], ["/in/l.log"]⟩).events =
      [.skippingFile (trimSpace "/in/l.log")] :=
  (stepEntry_never_moves_logger envOracle 5 cfgLoggerInside entryLogFile
    ⟨["/in", "/out"], ["/in/l.log"]⟩ rfl rfl rfl).1

/-! ## C10: partition directories are created during the skip check -/

/-- `os.MkdirAll` never removes a directory. -/
theorem mkdirAllOp_dirs_mono (env : Env) (d : String) (fs : FS) :
    ∀ x ∈ fs.dirs, x ∈ (mkdirAllOp env d fs).1.dirs := by
  intro x hx
  simp only [mkdirAllOp]
  split_ifs <;> simp [hx]

/-- A successful, permitted `os.MkdirAll` leaves the directory present. -/
theorem mkdirAllOp_mem (env : Env) (d : String) (fs : FS)
    (hne : d ≠ "") (hmk : env.mkdirOk d = true) :
    d ∈ (mkdirAllOp env d fs).1.dirs := by
  unfold mkdirAllOp
  by_cases h1 : fs.dirs.contains d = true
  · rw [if_pos h1]; simpa using h1
  · rw [if_neg h1, if_neg hne, if_pos hmk]
    simp

/-- `buildAndEnsureTargetDir` never removes a directory. -/
theorem buildAndEnsureTargetDir_dirs_mono (env : Env) (o : String)
    (t : Timestamp) (cfg : FilesMoveConfiguration) (fs : FS) :
    ∀ x ∈ fs.dirs, x ∈ (buildAndEnsureTargetDir env o t cfg fs).1.dirs := by
  intro x hx
  simp only [buildAndEnsureTargetDir]
  rcases buildPartitionDir o t cfg with e | dir
  · simpa using hx
  · simp only
    split_ifs with h1
    · simpa using hx
    · rcases hm : mkdirAllOp env dir fs with ⟨fs1, r⟩
      have := mkdirAllOp_dirs_mono env dir fs x hx
      rw [hm] at this
      rcases r with e | u <;> simpa using this

/-- In a live run with a buildable partition directory that the OS lets us
create, `buildAndEnsureTargetDir` leaves that directory on disk. -/
theorem buildAndEnsureTargetDir_mem (env : Env) (o : String) (t : Timestamp)
    (cfg : FilesMoveConfiguration) (fs : FS) (dir : String)
    (hdry : cfg.dryRun = false) (hbuild : buildPartitionDir o t cfg = .ok dir)
    (hne : dir ≠ "") (hmk : env.mkdirOk dir = true) :
    dir ∈ (buildAndEnsureTargetDir env o t cfg fs).1.dirs := by
  simp only [buildAndEnsureTargetDir, hbuild, hdry, Bool.false_eq_true, if_false]
  rcases hm : mkdirAllOp env dir fs with ⟨fs1, r⟩
  have := mkdirAllOp_mem env dir fs hne hmk
  rw [hm] at this
  rcases r with e | u <;> simpa using this

/-- `determineTargetPathUnsafe` returns the state of
`buildAndEnsureTargetDir`. -/
theorem determineTargetPathUnsafe_fs (env : Env) (p : String) (e : Entry)
    (cfg : FilesMoveConfiguration) (fs : FS) :
    (determineTargetPathUnsafe env p e cfg fs).1 =
      (buildAndEnsureTargetDir env cfg.outputFolder e.modTime cfg fs).1 := by
  simp only [determineTargetPathUnsafe]
  split_ifs <;> rfl

/-- `determineTargetPath` never removes a directory. -/
theorem determineTargetPath_dirs_mono (env : Env) (p : String) (e : Entry)
    (cfg : FilesMoveConfiguration) (fs : FS) :
    ∀ x ∈ fs.dirs, x ∈ (determineTargetPath env p e cfg fs).1.dirs := by
  intro x hx
  simp only [determineTargetPath]
  rcases hb : buildAndEnsureTargetDir env cfg.outputFolder e.modTime cfg fs with ⟨fs1, r⟩
  have := buildAndEnsureTargetDir_dirs_mono env cfg.outputFolder e.modTime cfg fs x hx
  rw [hb] at this
  rcases r with er | dir
  · simpa using this
  · simp only
    split_ifs
    · simpa using this
    · rcases relPath cfg.inputFolder p with _ | rp <;> simpa using this

/-- The log-file filter does not touch the filesystem. -/
theorem isLoggerPathFilter_fs (env : Env) (p : String) (e : Entry)
    (cfg : FilesMoveConfiguration) (fs : FS) :
    (isLoggerPathFilter env p e cfg fs).fs = fs := by
  simp only [isLoggerPathFilter]
  split_ifs <;> rfl

/-- The before-cutoff filter does not touch the filesystem. -/
theorem isFilterByBeforeConfiguration_fs (env : Env) (p : String) (e : Entry)
    (cfg : FilesMoveConfiguration) (fs : FS) :
    (isFilterByBeforeConfiguration env p e cfg fs).fs = fs := by
  simp only [isFilterByBeforeConfiguration]
  rcases cfg.before with _ | s
  · rfl
  · simp only
    rcases timeParseDate s with _ | ⟨⟨y, m, d⟩⟩
    · rfl
    · simp only
      split_ifs <;> rfl

/-- `ensureTargetDirectory` never removes a directory. -/
theorem ensureTargetDirectory_dirs_mono (env : Env) (tp : String) (dry : Bool)
    (fs : FS) : ∀ x ∈ fs.dirs, x ∈ (ensureTargetDirectory env tp dry fs).1.dirs := by
  intro x hx
  simp only [ensureTargetDirectory]
  split_ifs
  · simpa using hx
  · exact mkdirAllOp_dirs_mono env (dirName tp) fs x hx

/-- `copyFilePreserve` leaves the directory set unchanged. -/
theorem copyFilePreserve_dirs (env : Env) (src dst : String) (dry : Bool)
    (fs : FS) : (copyFilePreserve env src dst dry fs).fs.dirs = fs.dirs := by
  simp only [copyFilePreserve]
  split_ifs with h1 h2
  · rfl
  · simp [createFileFs]; split_ifs <;> rfl
  · rfl

/-- `moveFile` leaves the directory set unchanged. -/
theorem moveFile_dirs (env : Env) (fuel : Nat) (src dst : String) (dry : Bool)
    (fs : FS) : (moveFile env fuel src dst dry fs).fs.dirs = fs.dirs := by
  simp only [moveFile]
  rcases ensureUniquePath fs dst fuel with _ | u
  · rfl
  · simp only
    split_ifs with h1 h2 h3
    · rfl
    · rfl
    · rcases hc : copyFilePreserve env src u dry fs with ⟨cfs, cev, cr⟩
      have hcd := copyFilePreserve_dirs env src u dry fs
      rw [hc] at hcd
      simp only at hcd
      rcases cr with er | un
      · simpa using hcd
      · simpa [removeFileFs] using hcd
    · rcases hc : copyFilePreserve env src u dry fs with ⟨cfs, cev, cr⟩
      have hcd := copyFilePreserve_dirs env src u dry fs
      rw [hc] at hcd
      simp only at hcd
      rcases cr with er | un
      · simpa using hcd
      · simpa using hcd

/-- The already-relocated filter's state is the one the unsafe target
computation produced. -/
theorem isPathAlreadyRelocatedFilter_fs (env : Env) (p : String) (e : Entry)
    (cfg : FilesMoveConfiguration) (fs : FS) :
    (isPathAlreadyRelocatedFilter env p e cfg fs).fs =
      (determineTargetPathUnsafe env p e cfg fs).1 := by
  simp only [isPathAlreadyRelocatedFilter]
  split_ifs <;> rfl

/-- The whole filter pipeline's state is the state left by the first
filter: the later filters are pure. -/
theorem applySkipFilters_fs_from_first (env : Env) (p : String) (e : Entry)
    (cfg : FilesMoveConfiguration) (fs : FS) :
    (applySkipFilters env p e cfg fs).fs =
      (isPathAlreadyRelocatedFilter env p e cfg fs).fs := by
  simp only [applySkipFilters, applyFilterList]
  by_cases c1 : ((isPathAlreadyRelocatedFilter env p e cfg fs).skip ||
      (isPathAlreadyRelocatedFilter env p e cfg fs).err.isSome) = true
  · simp [c1]
  · simp only [c1, Bool.false_eq_true, if_false]
    by_cases c2 : ((isLoggerPathFilter env p e cfg
        (isPathAlreadyRelocatedFilter env p e cfg fs).fs).skip ||
        (isLoggerPathFilter env p e cfg
        (isPathAlreadyRelocatedFilter env p e cfg fs).fs).err.isSome) = true
    · simp [c2, isLoggerPathFilter_fs]
    · simp only [c2, Bool.false_eq_true, if_false, isLoggerPathFilter_fs]
      by_cases c3 : ((isFilterByBeforeConfiguration env p e cfg
          (isPathAlreadyRelocatedFilter env p e cfg fs).fs).skip ||
          (isFilterByBeforeConfiguration env p e cfg
          (isPathAlreadyRelocatedFilter env p e cfg fs).fs).err.isSome) = true
      · simp [c3, isFilterByBeforeConfiguration_fs]
      · simp [c3, isFilterByBeforeConfiguration_fs]

/-- C10. In every live (non-dry-run) callback on a regular file whose
partition directory is buildable and creatable, the partition directory is
on disk after the callback — the creation happens while the target path is
computed for the already-relocated skip check, before the skip decision,
so even files that end up skipped (the log file, cutoff-filtered files)
cause their partition directory to be created. -/
theorem stepEntry_creates_partition_dir (env : Env) (fuel : Nat)
    (cfg : FilesMoveConfiguration) (e : Entry) (fs : FS) (dir : String)
    (hdry : cfg.dryRun = false) (hwalk : e.walkErr = false) (hdir : e.isDir = false)
    (hbuild : buildPartitionDir cfg.outputFolder e.modTime cfg = .ok dir)
    (hne : dir ≠ "") (hmk : env.mkdirOk dir = true) :
    dir ∈ (stepEntry env fuel cfg e fs).fs.dirs := by
  have hmem1 : dir ∈ (applySkipFilters env (trimSpace e.path) e cfg fs).fs.dirs := by
    rw [applySkipFilters_fs_from_first, isPathAlreadyRelocatedFilter_fs,
      determineTargetPathUnsafe_fs]
    exact buildAndEnsureTargetDir_mem env cfg.outputFolder e.modTime cfg fs dir
      hdry hbuild hne hmk
  simp only [stepEntry, hwalk, hdir, Bool.false_eq_true, if_false]
  rcases hfr : applySkipFilters env (trimSpace e.path) e cfg fs with ⟨ffs, fev, fskip, ferr⟩
  rw [hfr] at hmem1
  simp only at hmem1
  rcases ferr with _ | err
  · simp only
    by_cases hsk : fskip = true
    · simp [hsk, hmem1]
    · simp only [Bool.not_eq_true] at hsk
      simp only [hsk, Bool.false_eq_true, if_false]
      rcases hdt : determineTargetPath env (trimSpace e.path) e cfg ffs with ⟨fs2, r2⟩
      have hm2 : dir ∈ fs2.dirs := by
        have hmono := determineTargetPath_dirs_mono env (trimSpace e.path) e cfg ffs dir hmem1
        rw [hdt] at hmono
        simpa using hmono
      rcases r2 with er2 | tp
      · simpa using hm2
      · simp only
        rcases het : ensureTargetDirectory env tp cfg.dryRun fs2 with ⟨fs3, r3⟩
        have hm3 : dir ∈ fs3.dirs := by
          have hmono := ensureTargetDirectory_dirs_mono env tp cfg.dryRun fs2 dir hm2
          rw [het] at hmono
          simpa using hmono
        rcases r3 with er3 | u3
        · simpa using hm3
        · simp only
          have hmv := moveFile_dirs env fuel (trimSpace e.path) tp cfg.dryRun fs3
          rcases hmov : moveFile env fuel (trimSpace e.path) tp cfg.dryRun fs3 with ⟨fs4, ev4, r4⟩
          rw [hmov] at hmv
          simp only at hmv
          have hm4 : dir ∈ fs4.dirs := by rw [hmv]; exact hm3
          rcases r4 with er4 | u4
          · simpa using hm4
          · simp only
            split_ifs <;> simpa using hm4
  · simpa using hmem1

/-- Witness for `stepEntry_creates_partition_dir`: the skipped in-tree log
file still gets its partition directory created. -/
theorem stepEntry_creates_partition_dir_witness :
    "/out/2024/Q2_Apr-Jun" ∈
      (stepEntry envOracle 5 cfgLoggerInside entryLogFile
        ⟨["/in", "/out"], ["/in/l.log"]⟩).fs.dirs :=
  stepEntry_creates_partition_dir envOracle 5 cfgLoggerInside entryLogFile
    ⟨["/in", "/out"], ["/in/l.log"]⟩ "/out/2024/Q2_Apr-Jun" rfl rfl rfl rfl
    (by decide) rfl

/-! ## C1: dry-run leaves the filesystem unchanged (engine) — but not main -/

/-- In dry-run, `buildAndEnsureTargetDir` returns before `os.MkdirAll`. -/
theorem buildAndEnsureTargetDir_dry (env : Env) (o : String) (t : Timestamp)
    (cfg : FilesMoveConfiguration) (fs : FS) (h : cfg.dryRun = true) :
    (buildAndEnsureTargetDir env o t cfg fs).1 = fs := by
  simp only [buildAndEnsureTargetDir]
  rcases buildPartitionDir o t cfg with er | dir
  · rfl
  · simp [h]

/-- In dry-run, the filter pipeline leaves the filesystem unchanged. -/
theorem applySkipFilters_dry (env : Env) (p : String) (e : Entry)
    (cfg : FilesMoveConfiguration) (fs : FS) (h : cfg.dryRun = true) :
    (applySkipFilters env p e cfg fs).fs = fs := by
  rw [applySkipFilters_fs_from_first, isPathAlreadyRelocatedFilter_fs,
    determineTargetPathUnsafe_fs, buildAndEnsureTargetDir_dry env _ _ _ _ h]

/-- In dry-run, `determineTargetPath` leaves the filesystem unchanged. -/
theorem determineTargetPath_dry (env : Env) (p : String) (e : Entry)
    (cfg : FilesMoveConfiguration) (fs : FS) (h : cfg.dryRun = true) :
    (determineTargetPath env p e cfg fs).1 = fs := by
  simp only [determineTargetPath]
  rcases hb : buildAndEnsureTargetDir env cfg.outputFolder e.modTime cfg fs with ⟨fs1, r⟩
  have hfs1 : fs1 = fs := by
    have hd := buildAndEnsureTargetDir_dry env cfg.outputFolder e.modTime cfg fs h
    rw [hb] at hd
    simpa using hd
  subst hfs1
  rcases r with er | dir
  · rfl
  · simp only
    split_ifs
    · rfl
    · rcases relPath cfg.inputFolder p with _ | rp <;> rfl

/-- In dry-run, `moveFile` performs no rename, copy or delete. -/
theorem moveFile_dry (env : Env) (fuel : Nat) (src dst : String) (fs : FS) :
    (moveFile env fuel src dst true fs).fs = fs := by
  simp only [moveFile]
  rcases ensureUniquePath fs dst fuel with _ | u
  · rfl
  · simp

/-- In dry-run, one walk callback leaves the filesystem unchanged. -/
theorem stepEntry_dry (env : Env) (fuel : Nat) (cfg : FilesMoveConfiguration)
    (e : Entry) (fs : FS) (h : cfg.dryRun = true) :
    (stepEntry env fuel cfg e fs).fs = fs := by
  by_cases hw : e.walkErr = true
  · simp [stepEntry, hw]
  · by_cases hd : e.isDir = true
    · simp only [Bool.not_eq_true] at hw
      simp [stepEntry, hw, hd]
    · simp only [Bool.not_eq_true] at hw hd
      simp only [stepEntry, hw, hd, Bool.false_eq_true, if_false]
      rcases hfr : applySkipFilters env (trimSpace e.path) e cfg fs with ⟨ffs, fev, fskip, ferr⟩
      have hffs : ffs = fs := by
        have hdry := applySkipFilters_dry env (trimSpace e.path) e cfg fs h
        rw [hfr] at hdry
        simpa using hdry
      subst hffs
      rcases ferr with _ | err
      · simp only
        by_cases hsk : fskip = true
        · simp [hsk]
        · simp only [Bool.not_eq_true] at hsk
          simp only [hsk, Bool.false_eq_true, if_false]
          rcases hdt : determineTargetPath env (trimSpace e.path) e cfg ffs with ⟨fs2, r2⟩
          have hfs2 : fs2 = ffs := by
            have hdry := determineTargetPath_dry env (trimSpace e.path) e cfg ffs h
            rw [hdt] at hdry
            simpa using hdry
          subst hfs2
          rcases r2 with er2 | tp
          · rfl
          · simp only [h, ensureTargetDirectory, if_true]
            have hmv := moveFile_dry env fuel (trimSpace e.path) tp fs2
            rcases hmov : moveFile env fuel (trimSpace e.path) tp true fs2 with ⟨fs4, ev4, r4⟩
            rw [hmov] at hmv
            simp only at hmv
            subst hmv
            rcases r4 with er4 | u4
            · rfl
            · simp
      · rfl

/-- C1 (amended). With dry-run enabled the relocation walk itself
(`organizeFiles`) leaves the filesystem unchanged for every input tree —
no directory is created and no file is moved, copied or deleted. (The
surrounding `main` still creates the output folder and the log file before
the walk, which is what refutes the claim for the whole run.) -/
theorem organizeFiles_dryRun_no_mutation (env : Env) (fuel : Nat)
    (cfg : FilesMoveConfiguration) (entries : List Entry) (fs : FS)
    (h : cfg.dryRun = true) :
    (organizeFiles env fuel cfg entries fs).fs = fs := by
  induction entries generalizing fs with
  | nil => rfl
  | cons e rest ih =>
    simp only [organizeFiles]
    rcases hst : stepEntry env fuel cfg e fs with ⟨fs1, ev1, r1⟩
    have hfs1 : fs1 = fs := by
      have hd := stepEntry_dry env fuel cfg e fs h
      rw [hst] at hd
      simpa using hd
    subst hfs1
    rcases r1 with er | u
    · rfl
    · simpa using ih fs1

/-- Witness for `organizeFiles_dryRun_no_mutation`: a dry run over two
input files changes nothing. -/
theorem organizeFiles_dryRun_no_mutation_witness :
    (organizeFiles envOracle 5 cfgDry [entryA, entryB] fsTwoInputs).fs = fsTwoInputs :=
  organizeFiles_dryRun_no_mutation envOracle 5 cfgDry [entryA, entryB] fsTwoInputs rfl

/-- C1 counterexample to the claim as stated: a dry-run **run** (main) on
a filesystem without the output folder still creates the output folder
(`os.MkdirAll` in `main` ignores the dry-run flag) and the log file. -/
theorem mainRun_dryRun_creates_output_dir :
    cfgDry.dryRun = true ∧
    "/out" ∉ (⟨["/in"], []⟩ : FS).dirs ∧
    "/out" ∈ (mainRun envOracle 5 cfgDry "/out/x.log" [] ⟨["/in"], []⟩).fs.dirs ∧
    "/out/x.log" ∈ (mainRun envOracle 5 cfgDry "/out/x.log" [] ⟨["/in"], []⟩).fs.files := by
  refine ⟨rfl, by decide, by decide, by decide⟩

/-! ## C2: per-entry traversal errors continue; relocation errors abort -/

/-- C2 (amended). A per-entry traversal error (the walk callback's non-nil
`err` argument) is logged and traversal continues with the remaining
entries. A per-file relocation failure (partition-path, directory-creation
or move/copy error), however, is returned from the walk callback, and
`filepath.Walk` then aborts: none of the remaining entries is visited. -/
theorem organizeFiles_error_propagation (env : Env) (fuel : Nat)
    (cfg : FilesMoveConfiguration) (e : Entry) (rest : List Entry) (fs : FS) :
    (e.walkErr = true →
      organizeFiles env fuel cfg (e :: rest) fs =
        ⟨(organizeFiles env fuel cfg rest fs).fs,
         LogEvent.errorOrganizing :: (organizeFiles env fuel cfg rest fs).events,
         (organizeFiles env fuel cfg rest fs).res⟩) ∧
    (∀ err, (stepEntry env fuel cfg e fs).res = .error err →
      organizeFiles env fuel cfg (e :: rest) fs =
        ⟨(stepEntry env fuel cfg e fs).fs, (stepEntry env fuel cfg e fs).events,
         .error err⟩) := by
  constructor
  · intro hw
    have hstep : stepEntry env fuel cfg e fs = ⟨fs, [.errorOrganizing], .ok ()⟩ := by
      simp [stepEntry, hw]
    simp only [organizeFiles, hstep, List.singleton_append]
  · intro err herr
    rcases hst : stepEntry env fuel cfg e fs with ⟨fs1, ev1, r1⟩
    rw [hst] at herr
    simp only at herr
    subst herr
    simp only [organizeFiles, hst]

/-- Witness for `organizeFiles_error_propagation`: a traversal error on
one entry leaves the remaining (empty) walk to proceed. -/
theorem organizeFiles_error_propagation_witness :
    organizeFiles envOracle 5 cfgLive
      [⟨"/in/denied", false, ⟨2024, 5, 10, 0, 0⟩, true⟩] fsTwoInputs =
      ⟨(organizeFiles envOracle 5 cfgLive [] fsTwoInputs).fs,
       LogEvent.errorOrganizing :: (organizeFiles envOracle 5 cfgLive [] fsTwoInputs).events,
       (organizeFiles envOracle 5 cfgLive [] fsTwoInputs).res⟩ :=
  (organizeFiles_error_propagation envOracle 5 cfgLive
    ⟨"/in/denied", false, ⟨2024, 5, 10, 0, 0⟩, true⟩ [] fsTwoInputs).1 rfl

/-- C2 counterexample to the claim as stated: when moving `/in/a.txt`
fails (rename and copy both fail), the error is logged for that file but
the whole walk aborts — `/in/b.txt` is never visited, produces no log
events and stays unmoved, although running the walk on it alone relocates
it. -/
theorem perFileError_aborts_walk :
    (organizeFiles envFailA 5 cfgLive [entryA, entryB] fsTwoInputs).res =
      .error (.copyFallbackFailed "/in/a.txt" "/out/2024/Q2_Apr-Jun/a.txt") ∧
    (organizeFiles envFailA 5 cfgLive [entryA, entryB] fsTwoInputs).events =
      [.renameFallback "/in/a.txt" "/out/2024/Q2_Apr-Jun/a.txt",
       .moveError "/in/a.txt" "/out/2024/Q2_Apr-Jun/a.txt"] ∧
    (organizeFiles envFailA 5 cfgLive [entryA, entryB] fsTwoInputs).fs.files =
      ["/in/a.txt", "/in/b.txt"] ∧
    (organizeFiles envFailA 5 cfgLive [entryB] fsTwoInputs).events =
      [.movedFile "/in/b.txt" "/out/2024/Q2_Apr-Jun/b.txt"] := by
  refine ⟨rfl, by decide, by decide, by decide⟩

/-! ## C3: the collision resolver `ensureUniquePath` -/

/-- Value of a digit list grown by one digit. -/
theorem digitsVal_append_singleton (xs : List Char) (c : Char) :
    digitsVal (xs ++ [c]) = digitsVal xs * 10 + (c.toNat - '0'.toNat) := by
  simp [digitsVal, List.foldl_append]

/-- `digitChar` renders the digit it was given. -/
theorem digitChar_val (n : Nat) (h : n < 10) :
    (digitChar n).toNat - '0'.toNat = n := by
  interval_cases n <;> decide

/-- Reading the rendered digits back yields the number: Go's `%d` output
determines its input. -/
theorem digitsVal_natDigits : ∀ fuel n, n < fuel → digitsVal (natDigits fuel n) = n := by
  intro fuel
  induction fuel with
  | zero => omega
  | succ f ih =>
    intro n hn
    by_cases h10 : n < 10
    · simp only [natDigits, h10, if_true]
      simpa [digitsVal] using digitChar_val n h10
    · have hdiv : n / 10 < f := by omega
      simp only [natDigits, h10, if_false]
      rw [digitsVal_append_singleton, ih _ hdiv, digitChar_val _ (Nat.mod_lt n (by omega))]
      omega

/-- The digit list of `natRepr` determines its input. -/
theorem natDigits_inj {a b : Nat} (h : natDigits (a + 1) a = natDigits (b + 1) b) :
    a = b := by
  have hv := digitsVal_natDigits (a + 1) a (by omega)
  rw [h, digitsVal_natDigits (b + 1) b (by omega)] at hv
  omega

/-- `natRepr` is injective. -/
theorem natRepr_inj {a b : Nat} (h : natRepr a = natRepr b) : a = b := by
  have hd := congrArg String.data h
  simp only [natRepr] at hd
  exact natDigits_inj hd

/-- The numbered base name `name(i)ext` is never the empty string. -/
theorem numberedBase_ne_empty (name ext : String) (i : Nat) :
    name ++ "(" ++ natRepr i ++ ")" ++ ext ≠ "" := by
  intro h
  have hdata : (name ++ "(" ++ natRepr i ++ ")" ++ ext).data = [] := by
    rw [h]
  simp [String.data_append] at hdata

/-- Distinct round numbers give distinct numbered base names. -/
theorem numberedBase_inj (name ext : String) {i j : Nat}
    (h : name ++ "(" ++ natRepr i ++ ")" ++ ext =
      name ++ "(" ++ natRepr j ++ ")" ++ ext) : i = j := by
  have hdata := congrArg String.data h
  simp only [String.data_append, List.append_assoc, List.singleton_append] at hdata
  have h0 := List.append_cancel_left hdata
  injection h0 with _ h1
  have hlen : (natRepr i).data.length = (natRepr j).data.length := by
    have := congrArg List.length h1
    simp only [List.append_eq, List.length_append, List.length_cons] at this
    omega
  have h2 := (List.append_inj h1 hlen).1
  refine natRepr_inj ?_
  rcases he : natRepr i with ⟨di⟩
  rcases hf : natRepr j with ⟨dj⟩
  rw [he, hf] at h2
  simp only at h2
  exact congrArg String.mk h2

/-- `filepath.Join` with a fixed directory is injective on non-empty base
names. -/
theorem joinPath_right_inj (dir : String) {x y : String} (hx : x ≠ "") (hy : y ≠ "")
    (h : joinPath dir x = joinPath dir y) : x = y := by
  simp only [joinPath] at h
  by_cases hd0 : dir = ""
  · simpa [hd0] using h
  · by_cases hdd : dir = "."
    · simpa [hd0, hx, hy, hdd] using h
    · simp only [hd0, hx, hy, hdd, if_false] at h
      have hdata := congrArg String.data h
      simp only [String.data_append, List.append_assoc] at hdata
      have h1 := List.append_cancel_left (List.append_cancel_left hdata)
      rcases x with ⟨xd⟩
      rcases y with ⟨yd⟩
      simp only at h1
      exact congrArg String.mk h1

/-- Distinct round numbers give distinct collision candidates. -/
theorem uniqueCandidate_inj (dir name ext : String) {i j : Nat}
    (h : uniqueCandidate dir name ext i = uniqueCandidate dir name ext j) : i = j := by
  simp only [uniqueCandidate] at h
  exact numberedBase_inj name ext
    (joinPath_right_inj dir (numberedBase_ne_empty name ext i)
      (numberedBase_ne_empty name ext j) h)

/-- When the scan returns a path, it is the first free numbered candidate
at or after the starting round: every earlier round's candidate exists. -/
theorem uniqueLoop_some_spec (fs : FS) (dir name ext : String) :
    ∀ fuel i p, uniqueLoop fs dir name ext i fuel = some p →
      ∃ k, i ≤ k ∧ p = uniqueCandidate dir name ext k ∧
        fileExists fs p = false ∧
        ∀ j, i ≤ j → j < k → fileExists fs (uniqueCandidate dir name ext j) = true := by
  intro fuel
  induction fuel with
  | zero => intro i p h; simp [uniqueLoop] at h
  | succ f ih =>
    intro i p h
    simp only [uniqueLoop] at h
    by_cases hex : fileExists fs (uniqueCandidate dir name ext i) = true
    · simp only [hex, Bool.not_true, Bool.false_eq_true, if_false] at h
      obtain ⟨k, hk1, hk2, hk3, hk4⟩ := ih (i + 1) p h
      refine ⟨k, by omega, hk2, hk3, ?_⟩
      intro j hj1 hj2
      rcases Nat.eq_or_lt_of_le hj1 with rfl | hj1'
      · exact hex
      · exact hk4 j (by omega) hj2
    · simp only [Bool.not_eq_true] at hex
      simp only [hex, Bool.not_false, if_true, Option.some.injEq] at h
      exact ⟨i, le_refl i, h.symm, h ▸ hex, fun j hj1 hj2 => by omega⟩

/-- When the scan runs out of fuel, every candidate it tried exists. -/
theorem uniqueLoop_none_exists (fs : FS) (dir name ext : String) :
    ∀ fuel i, uniqueLoop fs dir name ext i fuel = none →
      ∀ j, i ≤ j → j < i + fuel →
        fileExists fs (uniqueCandidate dir name ext j) = true := by
  intro fuel
  induction fuel with
  | zero => intro i _ j hj1 hj2; omega
  | succ f ih =>
    intro i h j hj1 hj2
    simp only [uniqueLoop] at h
    by_cases hex : fileExists fs (uniqueCandidate dir name ext i) = true
    · rcases Nat.eq_or_lt_of_le hj1 with rfl | hj1'
      · exact hex
      · simp only [hex, Bool.not_true, Bool.false_eq_true, if_false] at h
        exact ih (i + 1) h j (by omega) (by omega)
    · simp only [Bool.not_eq_true] at hex
      simp [hex] at h

/-- Pigeonhole: with fuel one more than the number of filesystem entries,
the scan cannot run out — the tried candidates are pairwise distinct, and
a filesystem with `n` entries cannot contain `n + 1` distinct paths. -/
theorem uniqueLoop_total (fs : FS) (dir name ext : String) (i : Nat) :
    uniqueLoop fs dir name ext i (fs.files.length + fs.dirs.length + 1) ≠ none := by
  intro hnone
  have hall := uniqueLoop_none_exists fs dir name ext _ i hnone
  have hmem : ∀ j, i ≤ j → j < i + (fs.files.length + fs.dirs.length + 1) →
      uniqueCandidate dir name ext j ∈ fs.files ++ fs.dirs := by
    intro j h1 h2
    have hx := hall j h1 h2
    simp only [fileExists, Bool.or_eq_true] at hx
    rcases hx with hx | hx
    · exact List.mem_append.mpr (Or.inl (by simpa using hx))
    · exact List.mem_append.mpr (Or.inr (by simpa using hx))
  have hnodup : ((List.range (fs.files.length + fs.dirs.length + 1)).map
      (fun t => uniqueCandidate dir name ext (i + t))).Nodup := by
    refine List.Nodup.map_on ?_ (List.nodup_range _)
    intro a _ b _ hab
    have := uniqueCandidate_inj dir name ext hab
    omega
  have hsub : ((List.range (fs.files.length + fs.dirs.length + 1)).map
      (fun t => uniqueCandidate dir name ext (i + t))) ⊆ fs.files ++ fs.dirs := by
    intro x hx
    simp only [List.mem_map, List.mem_range] at hx
    obtain ⟨t, ht, rfl⟩ := hx
    exact hmem (i + t) (by omega) (by omega)
  have hle := (List.subperm_of_subset hnodup hsub).length_le
  simp only [List.length_map, List.length_range, List.length_append] at hle
  omega

/-- C3. `ensureUniquePath` (run with fuel exceeding the filesystem size,
which the unbounded Go loop always has): if nothing exists at the
candidate path it is returned unchanged; otherwise the result is the
candidate with the numeric disambiguator `(i)` inserted immediately before
the file extension, for the smallest `i ≥ 1` whose path names no existing
entry. Consequently the returned path never names an existing file, a
second call on the returned (non-existing) path returns it unchanged at
any fuel, one pre-existing collision yields `(1)` and two yield `(2)`. -/
theorem ensureUniquePath_spec :
    (∀ (fs : FS) (path : String), ∃ p,
      ensureUniquePath fs path (fs.files.length + fs.dirs.length + 1) = some p ∧
      fileExists fs p = false ∧
      (∀ fuel2, ensureUniquePath fs p fuel2 = some p) ∧
      (fileExists fs path = false → p = path) ∧
      (fileExists fs path = true → ∃ i, 1 ≤ i ∧ p = insertDisambiguator path i ∧
        ∀ j, 1 ≤ j → j < i → fileExists fs (insertDisambiguator path j) = true)) ∧
    ensureUniquePath fsOneCollision "/o/doc.pdf" 3 = some "/o/doc(1).pdf" ∧
    ensureUniquePath fsTwoCollisions "/o/doc.pdf" 4 = some "/o/doc(2).pdf" := by
  refine ⟨?_, by decide, by decide⟩
  intro fs path
  by_cases hex : fileExists fs path = true
  · have htot := uniqueLoop_total fs (dirName path)
      (String.mk ((baseName path).toList.take
        ((baseName path).toList.length - (extName (baseName path)).toList.length)))
      (extName (baseName path)) 1
    rcases hres : uniqueLoop fs (dirName path)
        (String.mk ((baseName path).toList.take
          ((baseName path).toList.length - (extName (baseName path)).toList.length)))
        (extName (baseName path)) 1 (fs.files.length + fs.dirs.length + 1) with _ | p
    · exact absurd hres htot
    · obtain ⟨k, hk1, hk2, hk3, hk4⟩ := uniqueLoop_some_spec fs _ _ _ _ 1 p hres
      refine ⟨p, ?_, hk3, ?_, ?_, ?_⟩
      · simp only [ensureUniquePath, hex, Bool.not_true, Bool.false_eq_true, if_false]
        exact hres
      · intro fuel2
        simp [ensureUniquePath, hk3]
      · intro hc
        simp [hc] at hex
      · intro _
        exact ⟨k, hk1, by simpa [insertDisambiguator] using hk2,
          fun j hj1 hj2 => by simpa [insertDisambiguator] using hk4 j hj1 hj2⟩
  · simp only [Bool.not_eq_true] at hex
    refine ⟨path, ?_, hex, ?_, fun _ => rfl, fun hc => absurd hc (by simp [hex])⟩
    · simp [ensureUniquePath, hex]
    · intro fuel2
      simp [ensureUniquePath, hex]

/-- Witness for `ensureUniquePath_spec` at a doubly-colliding candidate. -/
theorem ensureUniquePath_spec_witness :
    ∃ p, ensureUniquePath fsTwoCollisions "/o/doc.pdf"
        (fsTwoCollisions.files.length + fsTwoCollisions.dirs.length + 1) = some p ∧
      fileExists fsTwoCollisions p = false ∧
      (∀ fuel2, ensureUniquePath fsTwoCollisions p fuel2 = some p) ∧
      (fileExists fsTwoCollisions "/o/doc.pdf" = false → p = "/o/doc.pdf") ∧
      (fileExists fsTwoCollisions "/o/doc.pdf" = true → ∃ i, 1 ≤ i ∧
        p = insertDisambiguator "/o/doc.pdf" i ∧
        ∀ j, 1 ≤ j → j < i →
          fileExists fsTwoCollisions (insertDisambiguator "/o/doc.pdf" j) = true) :=
  ensureUniquePath_spec.1 fsTwoCollisions "/o/doc.pdf"
